import Mathlib

/-
Verification of the `har-to-jmeter` serverless function
(`supabase/functions/har-to-jmeter/index.ts`).

The TypeScript handler is shallowly embedded below.  Strings are modelled as
Lean `String` / `List Char` (the patterns matched by the code are all ASCII,
so the UTF-16 vs. scalar-value distinction is immaterial for the matching
semantics).  JavaScript numbers are modelled exactly over `Rat`, with the
special values `NaN` / `Infinity` tracked by the `JsNum` type at the one
place the code can produce them (division).  Platform primitives that the
handler merely calls through — `JSON.stringify` pretty-printing of the HAR
document and `new URL(u).hostname` — are taken as explicit function
parameters of the model; `fetch` is modelled as an oracle mapping the
outbound request to the provider response the handler then inspects.
-/

namespace HarToJmeter

/- JavaScript `\s` (WhiteSpace ∪ LineTerminator, per ECMA-262). -/
def jsWhitespace (c : Char) : Bool :=
  c == ' ' || c == '\t' || c == '\n' || c == '\r' ||
  c == '\x0b' || c == '\x0c' ||
  c == '\u00A0' || c == '\u1680' ||
  (decide (0x2000 ≤ c.toNat) && decide (c.toNat ≤ 0x200A)) ||
  c == '\u2028' || c == '\u2029' || c == '\u202F' || c == '\u205F' ||
  c == '\u3000' || c == '\uFEFF'

/- The literal fragments of the two regexes and of the validation check. -/
def ticks : List Char := ['`', '`', '`']

def xmlTag : List Char := ['x', 'm', 'l']

def xmlProlog : List Char := ['<', '?', 'x', 'm', 'l']

def closeTag : List Char :=
  ['<', '/', 'j', 'm', 'e', 't', 'e', 'r', 'T', 'e', 's', 't', 'P', 'l', 'a', 'n', '>']

def jmeterTag : List Char :=
  ['<', 'j', 'm', 'e', 't', 'e', 'r', 'T', 'e', 's', 't', 'P', 'l', 'a', 'n']

/- Match a literal at the head of the input; on success return the rest. -/
def stripLit : List Char → List Char → Option (List Char)
  | [], l => some l
  | _ :: _, [] => none
  | p :: ps, c :: cs => if c = p then stripLit ps cs else none

/- `s.includes(pat)` (JavaScript `String.prototype.includes`). -/
def occursIn (pat : List Char) : List Char → Bool
  | [] => (stripLit pat []).isSome
  | l@(_ :: t) => (stripLit pat l).isSome || occursIn pat t

/-
The first extraction regex of the handler, specialised as a backtracking
matcher:

    /```(?:xml)?\s*([\s\S]*?)\s*```/

`matchClose` matches the tail `\s*```` (greedy `\s*`, trying the longest
whitespace run first and backtracking), returning the input left over after
the closing fence.
-/
def matchClose : List Char → Option (List Char)
  | [] => stripLit ticks []
  | c :: t =>
    if jsWhitespace c then
      match matchClose t with
      | some r => some r
      | none => stripLit ticks (c :: t)
    else stripLit ticks (c :: t)

/-
`scanGroup` matches `([\s\S]*?)\s*```` — the lazy capture group tries the
shortest content first, extending one character at a time.  It returns the
captured group together with the input left over after the closing fence.
-/
def scanGroup : List Char → Option (List Char × List Char)
  | [] =>
    match matchClose [] with
    | some r => some ([], r)
    | none => none
  | c :: t =>
    match matchClose (c :: t) with
    | some r => some ([], r)
    | none =>
      match scanGroup t with
      | some (g, r) => some (c :: g, r)
      | none => none

/- `matchWsThenGroup` matches `\s*([\s\S]*?)\s*```` (leading `\s*` greedy). -/
def matchWsThenGroup : List Char → Option (List Char × List Char)
  | [] => scanGroup []
  | c :: t =>
    if jsWhitespace c then
      match matchWsThenGroup t with
      | some r => some r
      | none => scanGroup (c :: t)
    else scanGroup (c :: t)

/-
Try the whole fenced-block regex anchored at the head of `l`.  The optional
`(?:xml)?` is greedy: the alternative that consumes `xml` is tried first.
On success, return the captured group and the full match (match index 0).
-/
def tryFenceAt (l : List Char) : Option (List Char × List Char) :=
  match stripLit ticks l with
  | none => none
  | some l3 =>
    match (match stripLit xmlTag l3 with
           | some l6 => matchWsThenGroup l6
           | none => none) with
    | some (g, r) => some (g, l.take (l.length - r.length))
    | none =>
      match matchWsThenGroup l3 with
      | some (g, r) => some (g, l.take (l.length - r.length))
      | none => none

/- `aiText.match(/```(?:xml)?\s*([\s\S]*?)\s*```/)`: leftmost match wins. -/
def findFence : List Char → Option (List Char × List Char)
  | [] => tryFenceAt []
  | c :: t =>
    match tryFenceAt (c :: t) with
    | some r => some r
    | none => findFence t

/-
The second extraction regex:

    /<\?xml[\s\S]*<\/jmeterTestPlan>/

`greedyToClose` matches `[\s\S]*</jmeterTestPlan>`: the star is greedy, so
the longest consumption is tried first and the match ends at the *last*
occurrence of the closing tag.  Returns the input left over after the tag.
-/
def greedyToClose : List Char → Option (List Char)
  | [] => stripLit closeTag []
  | c :: t =>
    match greedyToClose t with
    | some r => some r
    | none => stripLit closeTag (c :: t)

/- Try the prolog regex anchored at the head of `l`; return match index 0. -/
def tryXmlAt (l : List Char) : Option (List Char) :=
  match stripLit xmlProlog l with
  | none => none
  | some l5 =>
    match greedyToClose l5 with
    | some r => some (l.take (l.length - r.length))
    | none => none

/- `aiText.match(/<\?xml[\s\S]*<\/jmeterTestPlan>/)`: leftmost match wins. -/
def findXmlSpan : List Char → Option (List Char)
  | [] => tryXmlAt []
  | c :: t =>
    match tryXmlAt (c :: t) with
    | some m => some m
    | none => findXmlSpan t

/-
Lines 156–166 of index.ts (the Google branch):

    const xmlMatch = aiText.match(/```(?:xml)?\s*([\s\S]*?)\s*```/)
                  || aiText.match(/<\?xml[\s\S]*<\/jmeterTestPlan>/);
    if (xmlMatch) { jmxContent = xmlMatch[1] || xmlMatch[0]; }
    else { jmxContent = aiText; }

`xmlMatch[1] || xmlMatch[0]`: for the fenced regex, an *empty* capture
group is falsy in JavaScript, so the whole match (fences included) is used;
for the prolog regex there is no capture group, so `xmlMatch[0]` is used.
-/
def extractCandidateGoogle (aiText : String) : String :=
  match findFence aiText.data with
  | some (g, m) => if g = [] then String.mk m else String.mk g
  | none =>
    match findXmlSpan aiText.data with
    | some m => String.mk m
    | none => aiText

/- Lines 167–179 of index.ts (the OpenAI branch) — duplicated verbatim. -/
def extractCandidateOpenAI (aiText : String) : String :=
  match findFence aiText.data with
  | some (g, m) => if g = [] then String.mk m else String.mk g
  | none =>
    match findXmlSpan aiText.data with
    | some m => String.mk m
    | none => aiText

/-
Data model (interfaces `LoadConfig`, `HarEntry`, `HarFile` of index.ts).
JSON numbers are modelled over `Rat` (exact; IEEE-754 rounding of the
double arithmetic is abstracted away — the only arithmetic performed on
them is the response-time sum/mean).
-/
structure LoadConfig where
  threadCount : Int
  rampUpTime : Int
  duration : Int
  loopCount : Int
deriving DecidableEq

structure NameValue where
  name : String
  value : String
deriving DecidableEq

structure PostData where
  mimeType : String
  text : String
deriving DecidableEq

structure HarRequest where
  method : String
  url : String
  headers : List NameValue
  queryString : List NameValue
  postData : Option PostData
deriving DecidableEq

structure HarResponse where
  status : Int
  headers : List NameValue
deriving DecidableEq

structure HarEntry where
  request : HarRequest
  response : HarResponse
  time : Rat
  startedDateTime : String
deriving DecidableEq

structure HarLog where
  entries : List HarEntry
deriving DecidableEq

structure HarFile where
  log : HarLog
deriving DecidableEq

/-
JavaScript number results of the division in the summary: `0/0` is `NaN`,
`x/0` is a signed `Infinity`, otherwise the exact quotient.
-/
inductive JsNum where
  | num : Rat → JsNum
  | nan : JsNum
  | inf : Bool → JsNum
deriving DecidableEq

def jsDiv (a b : Rat) : JsNum :=
  if b = 0 then (if a = 0 then JsNum.nan else JsNum.inf (decide (0 < a)))
  else JsNum.num (a / b)

/-
`[...new Set(xs)]`: JavaScript `Set` keeps insertion order and drops later
duplicates, so the spread is the first-occurrence deduplication of `xs`.
-/
def jsSetDedup (l : List String) : List String :=
  l.foldl (fun acc x => if x ∈ acc then acc else acc ++ [x]) []

structure Summary where
  totalRequests : Nat
  uniqueDomains : List String
  methodsUsed : List String
  avgResponseTime : JsNum
deriving DecidableEq

/-
Lines 199–204 of index.ts.  `host` stands for `u => new URL(u).hostname`
(the WHATWG URL parser is a platform primitive; the handler only ever maps
it over the entry URLs).
-/
def buildSummary (host : String → String) (entries : List HarEntry) : Summary :=
  ⟨entries.length,
   jsSetDedup (entries.map (fun e => host e.request.url)),
   jsSetDedup (entries.map (fun e => e.request.method)),
   jsDiv (entries.foldl (fun sum e => sum + e.time) 0) (entries.length : Rat)⟩

/- The two environment secrets (lines 4 and 104 of index.ts). -/
structure Env where
  openAIApiKey : Option String
  googleAIApiKey : Option String
deriving DecidableEq

/-
The outbound `fetch` request.  The JSON bodies the handler builds are kept
structured; `JSON.stringify` is deterministic, so equal structured bodies
serialise to equal body strings.
-/
inductive OutboundBody where
  | googleGenerate (text : String)
  | openaiChat (model : String) (systemMsg : String) (userMsg : String)
      (maxCompletionTokens : Nat)
deriving DecidableEq

structure OutboundRequest where
  url : String
  method : String
  headers : List (String × String)
  body : OutboundBody
deriving DecidableEq

/- Shape of the Google response JSON as far as the handler reads it. -/
structure GPart where
  text : Option String
deriving DecidableEq

structure GContent where
  parts : Option (List GPart)
deriving DecidableEq

structure GCandidate where
  content : Option GContent
deriving DecidableEq

structure GoogleBody where
  candidates : Option (List GCandidate)
deriving DecidableEq

/- Shape of the OpenAI response JSON as far as the handler reads it. -/
structure OAMessage where
  content : Option String
deriving DecidableEq

structure OAChoice where
  message : Option OAMessage
deriving DecidableEq

structure OpenAIBody where
  choices : Option (List OAChoice)
deriving DecidableEq

/-
Result of the `fetch` call as consumed by the handler: the `ok` flag and
`statusText`, the raw error body (read via `.text()` on the error path) and
the parsed JSON body (read via `.json()` on the success path), projected to
whichever of the two shapes the provider branch then inspects.
-/
structure FetchResult where
  ok : Bool
  statusText : String
  errorText : String
  googleJson : GoogleBody
  openaiJson : OpenAIBody
deriving DecidableEq

/- Lines 6–9 of index.ts. -/
def corsHeaders : List (String × String) :=
  [("Access-Control-Allow-Origin", "*"),
   ("Access-Control-Allow-Headers", "authorization, x-client-info, apikey, content-type")]

/- `{ ...corsHeaders, 'Content-Type': 'application/json' }`. -/
def jsonHeaders : List (String × String) :=
  corsHeaders ++ [("Content-Type", "application/json")]

/- The fixed instructional template of `jmxPrompt` (lines 60–98). -/
def promptTemplate : String :=
  "You are an expert in Apache JMeter test plan creation.  \nYour task is to generate a complete Apache JMeter (.jmx) file based on the provided HAR file (HTTP Archive).  \n\n### Requirements:  \n1. Parse the HAR file and extract:  \n   - All HTTP requests (method, URL, headers, body, query params, cookies).  \n   - Request order and sequence should be preserved as in the HAR file.  \n   - Response payloads that may contain dynamic values (IDs, tokens).  \n\n2. Create a JMeter Test Plan (.jmx) with the following:  \n   - Thread Group with configurable threads, ramp-up, and loop count.  \n   - HTTP Request Samplers for every request from HAR.  \n   - Group requests by domain or sequence for readability.  \n   - Add `HTTP Header Manager` for common headers (Authorization, Content-Type, User-Agent, etc.).  \n   - Add `CSV Data Set Config` to externalize dynamic values (e.g., user IDs, emails, tokens).  \n   - Replace hardcoded parameters with variables `${varName}`.  \n\n3. Correlation and Dynamic Data Handling:  \n   - Use `JSON Extractor` or `Regular Expression Extractor` to capture response values (auth token, IDs, session keys).  \n   - Replace dependent requests with extracted variables.  \n   - If HAR contains repeated values (like auth tokens), store them in variables.  \n\n4. Enhancements:  \n   - Insert default test data where needed (if request body is empty or HAR doesn\x27t provide enough).  \n   - Add a `View Results Tree` listener for debugging.  \n   - Ensure the JMX is well-formed XML and directly runnable in JMeter.  \n\n### Output:  \n- Provide the final JMX file content as valid XML inside a code block.  \n- Do not summarize, only return the JMX file.  \n- Ensure all nodes (`TestPlan`, `ThreadGroup`, `HTTPSamplerProxy`, `HeaderManager`, etc.) follow correct JMeter XML structure.  \n\n### Input:  \nHAR file content (JSON format) will be provided.  \n\n### Task:  \nGenerate the complete JMX file according to the above rules.\n\n### HAR file content:\n"

/-
Line 99: the prompt is the template followed by
`JSON.stringify(harData, null, 2)` (`strf` abstracts the pretty-printer).
Note that it is a function of the HAR document only — `loadConfig` is
never interpolated.
-/
def jmxPrompt (strf : HarFile → String) (harData : HarFile) : String :=
  promptTemplate ++ strf harData

/- The OpenAI system message (line 137). -/
def systemMessage : String :=
  "You are an expert JMeter test plan generator. Generate only valid JMeter XML files based on HAR file data."

/- The request built by the Google branch (lines 109–121). -/
def googleRequest (key : String) (prompt : String) : OutboundRequest :=
  ⟨"https://generativelanguage.googleapis.com/v1beta/models/gemini-1.5-flash:generateContent?key="
     ++ key,
   "POST", [("Content-Type", "application/json")],
   OutboundBody.googleGenerate prompt⟩

/- The request built by the OpenAI branch (lines 128–142). -/
def openaiRequest (key : String) (prompt : String) : OutboundRequest :=
  ⟨"https://api.openai.com/v1/chat/completions", "POST",
   [("Authorization", "Bearer " ++ key), ("Content-Type", "application/json")],
   OutboundBody.openaiChat ("gpt-5-2025-08-07") systemMessage prompt 8000⟩

/-
The provider branch (lines 103–143): resolve the required key for the
selected provider and build the outbound request, or fail with the
configuration error that branch throws.
-/
def selectProvider (env : Env) (prov : String) (prompt : String) :
    Except String OutboundRequest :=
  if prov = "google" then
    match env.googleAIApiKey with
    | none => Except.error ("Google AI API key not configured")
    | some key => Except.ok (googleRequest key prompt)
  else
    match env.openAIApiKey with
    | none => Except.error ("OpenAI API key not configured")
    | some key => Except.ok (openaiRequest key prompt)

/-
`jmxData.candidates?.[0]?.content?.parts?.[0]?.text` (line 157); `none`
plays the role of `undefined` all along the optional chain.
-/
def googleAiText (b : GoogleBody) : Option String :=
  (((b.candidates.bind List.head?).bind GCandidate.content).bind GContent.parts).bind
    (fun ps => (List.head? ps).bind GPart.text)

/-
Lines 156–166: the `if` tests the chained value for truthiness, so an
empty string is skipped and `jmxContent` keeps its initial value `''`.
-/
def googleJmx (b : GoogleBody) : String :=
  match googleAiText b with
  | some t => if t = "" then "" else extractCandidateGoogle t
  | none => ""

/- `jmxData.choices?.[0]?.message?.content` (line 169). -/
def openaiAiText (b : OpenAIBody) : Option String :=
  ((b.choices.bind List.head?).bind OAChoice.message).bind OAMessage.content

/- Lines 167–179, the OpenAI counterpart of `googleJmx`. -/
def openaiJmx (b : OpenAIBody) : String :=
  match openaiAiText b with
  | some t => if t = "" then "" else extractCandidateOpenAI t
  | none => ""

/- The per-provider extraction dispatch (lines 156 and 167). -/
def jmxOf (prov : String) (resp : FetchResult) : String :=
  if prov = "google" then googleJmx resp.googleJson else openaiJmx resp.openaiJson

structure Metadata where
  provider : String
  generatedByAI : Bool
  testPlanName : String
deriving DecidableEq

/-
Body of the HTTP response the handler produces: the success JSON envelope,
the error JSON envelope (`{ error, stack }` — the stack-trace text is a
runtime artifact and is not modelled), or the empty preflight body.
-/
inductive ResponseBody where
  | success (jmxContent : String) (metadata : Metadata) (summary : Summary)
  | failure (error : String)
  | empty
deriving DecidableEq

/-
The observable outcome of one invocation: HTTP status, response headers and
body, the outbound `fetch` calls issued, and the `console` log/error lines
(multi-argument `console.error` calls are modelled as the space-joined
message).
-/
structure HandlerResult where
  status : Nat
  headers : List (String × String)
  body : ResponseBody
  outboundCalls : List OutboundRequest
  logs : List String
deriving DecidableEq

/-
The parsed JSON request body (line 49).  `harContent` may arrive as a
string and be `JSON.parse`d; the model takes the parsed document (a parse
failure would propagate to the catch-all handler, which no claim is
about).  The destructuring defaults are applied in `handleRequest`.
-/
structure RequestBody where
  harContent : HarFile
  loadConfig : Option LoadConfig
  testPlanName : Option String
  aiProvider : Option String

structure Request where
  method : String
  body : RequestBody

/-
The whole `serve` handler (lines 43–219).  `world` is the `fetch` oracle,
`host` the URL-hostname parser, `strf` the HAR pretty-printer.
-/
def handleRequest (env : Env) (world : OutboundRequest → FetchResult)
    (host : String → String) (strf : HarFile → String) (req : Request) :
    HandlerResult :=
  if req.method = "OPTIONS" then
    ⟨200, corsHeaders, ResponseBody.empty, [], []⟩
  else
    let prov := req.body.aiProvider.getD ("openai")
    let tpn := req.body.testPlanName.getD ("HAR Performance Test")
    let harData := req.body.harContent
    let entries := harData.log.entries
    let baseLogs := ["Processing HAR file with OpenAI...",
                     "Found " ++ toString entries.length ++ " HTTP requests in HAR file"]
    let prompt := jmxPrompt strf harData
    match selectProvider env prov prompt with
    | Except.error msg =>
      ⟨500, jsonHeaders, ResponseBody.failure msg, [],
       baseLogs ++ ["Error in har-to-jmeter function: " ++ msg]⟩
    | Except.ok outReq =>
      let resp := world outReq
      if resp.ok then
        let jmxContent := jmxOf prov resp
        let okLogs := baseLogs ++ [prov ++ " JMX Generation Response received"]
        if jmxContent = "" ∨ occursIn jmeterTag jmxContent.data = false then
          ⟨500, jsonHeaders,
           ResponseBody.failure ("AI did not generate valid JMeter XML content"),
           [outReq],
           okLogs ++ ["Error in har-to-jmeter function: AI did not generate valid JMeter XML content"]⟩
        else
          ⟨200, jsonHeaders,
           ResponseBody.success jmxContent
             ⟨if prov = "google" then "Google AI Studio" else "OpenAI", true, tpn⟩
             (buildSummary host entries),
           [outReq],
           okLogs ++ ["JMeter XML generated successfully"]⟩
      else
        let innerMsg := prov ++ " API error: " ++ resp.statusText
        let outerMsg := "Failed to generate JMX file using AI: " ++ innerMsg
        ⟨500, jsonHeaders, ResponseBody.failure outerMsg, [outReq],
         baseLogs ++ [prov ++ " API error: " ++ resp.errorText,
                      "Error generating JMX with " ++ prov ++ ": " ++ innerMsg,
                      "Error in har-to-jmeter function: " ++ outerMsg]⟩

/-
Soundness and completeness lemmas connecting the backtracking matchers to
declarative decompositions of the input.
-/

theorem stripLit_some_iff {pat l r : List Char} :
    stripLit pat l = some r ↔ l = pat ++ r := by
  induction pat generalizing l with
  | nil => simp [stripLit]
  | cons p ps ih =>
    cases l with
    | nil => simp [stripLit]
    | cons c cs =>
      by_cases h : c = p
      · subst h
        simp [stripLit, ih]
      · simp [stripLit, h]

theorem take_len_append (A r : List Char) : (A ++ r).take A.length = A := by
  induction A with
  | nil => simp
  | cons c t ih => simp [ih]

theorem take_all_but (A r : List Char) :
    (A ++ r).take ((A ++ r).length - r.length) = A := by
  have h : (A ++ r).length - r.length = A.length := by
    simp [List.length_append]
  rw [h]
  exact take_len_append A r

theorem matchClose_nil : matchClose [] = none := rfl

theorem matchClose_cons (c : Char) (t : List Char) :
    matchClose (c :: t) =
      if jsWhitespace c then
        match matchClose t with
        | some r => some r
        | none => stripLit ticks (c :: t)
      else stripLit ticks (c :: t) := rfl

theorem scanGroup_nil : scanGroup [] = none := rfl

theorem scanGroup_cons (c : Char) (t : List Char) :
    scanGroup (c :: t) =
      match matchClose (c :: t) with
      | some r => some ([], r)
      | none =>
        match scanGroup t with
        | some (g, r) => some (c :: g, r)
        | none => none := rfl

theorem matchWsThenGroup_nil : matchWsThenGroup [] = none := rfl

theorem matchWsThenGroup_cons (c : Char) (t : List Char) :
    matchWsThenGroup (c :: t) =
      if jsWhitespace c then
        match matchWsThenGroup t with
        | some r => some r
        | none => scanGroup (c :: t)
      else scanGroup (c :: t) := rfl

theorem greedyToClose_nil : greedyToClose [] = none := rfl

theorem greedyToClose_cons (c : Char) (t : List Char) :
    greedyToClose (c :: t) =
      match greedyToClose t with
      | some r => some r
      | none => stripLit closeTag (c :: t) := rfl

theorem findFence_nil : findFence [] = none := rfl

theorem findFence_cons (c : Char) (t : List Char) :
    findFence (c :: t) =
      match tryFenceAt (c :: t) with
      | some r => some r
      | none => findFence t := rfl

theorem findXmlSpan_nil : findXmlSpan [] = none := rfl

theorem findXmlSpan_cons (c : Char) (t : List Char) :
    findXmlSpan (c :: t) =
      match tryXmlAt (c :: t) with
      | some m => some m
      | none => findXmlSpan t := rfl

theorem matchClose_sound : ∀ {l r : List Char}, matchClose l = some r →
    ∃ w, l = w ++ (ticks ++ r) ∧ ∀ c ∈ w, jsWhitespace c := by
  intro l
  induction l with
  | nil =>
    intro r h
    rw [matchClose_nil] at h
    cases h
  | cons c t ih =>
    intro r h
    rw [matchClose_cons] at h
    by_cases hw : jsWhitespace c
    · rw [if_pos hw] at h
      cases hmc : matchClose t with
      | some r2 =>
        rw [hmc] at h
        injection h with h2
        subst h2
        obtain ⟨w, h1, h2⟩ := ih hmc
        refine ⟨c :: w, by simp [h1], ?_⟩
        intro x hx
        rcases List.mem_cons.mp hx with rfl | hx2
        · exact hw
        · exact h2 x hx2
      | none =>
        rw [hmc] at h
        exact ⟨[], by simpa using stripLit_some_iff.mp h, by simp⟩
    · rw [if_neg hw] at h
      exact ⟨[], by simpa using stripLit_some_iff.mp h, by simp⟩

theorem matchClose_ticks (b : List Char) : matchClose (ticks ++ b) = some b := by
  show matchClose ('`' :: '`' :: '`' :: b) = some b
  rw [matchClose_cons]
  have hw : jsWhitespace '`' = false := by decide
  rw [hw]
  simp [stripLit, ticks]

theorem scanGroup_sound : ∀ {l g r : List Char}, scanGroup l = some (g, r) →
    ∃ w, l = g ++ (w ++ (ticks ++ r)) ∧ ∀ c ∈ w, jsWhitespace c := by
  intro l
  induction l with
  | nil =>
    intro g r h
    rw [scanGroup_nil] at h
    cases h
  | cons c t ih =>
    intro g r h
    rw [scanGroup_cons] at h
    cases hmc : matchClose (c :: t) with
    | some r2 =>
      rw [hmc] at h
      simp only [Option.some.injEq, Prod.mk.injEq] at h
      obtain ⟨hg, hr⟩ := h
      subst hg
      subst hr
      obtain ⟨w, h1, h2⟩ := matchClose_sound hmc
      exact ⟨w, by simpa using h1, h2⟩
    | none =>
      rw [hmc] at h
      cases hsg : scanGroup t with
      | some gr =>
        obtain ⟨g2, r2⟩ := gr
        rw [hsg] at h
        simp only [Option.some.injEq, Prod.mk.injEq] at h
        obtain ⟨hg, hr⟩ := h
        subst hg
        subst hr
        obtain ⟨w, h1, h2⟩ := ih hsg
        exact ⟨w, by simp [h1], h2⟩
      | none =>
        rw [hsg] at h
        cases h

theorem scanGroup_ne_none : ∀ {l : List Char},
    (∃ a b, l = a ++ (ticks ++ b)) → scanGroup l ≠ none := by
  intro l
  induction l with
  | nil =>
    rintro ⟨a, b, hl⟩ _
    have := congrArg List.length hl
    simp [ticks, List.length_append] at this
    omega
  | cons c t ih =>
    rintro ⟨a, b, hl⟩ h
    rw [scanGroup_cons] at h
    cases hmc : matchClose (c :: t) with
    | some r => rw [hmc] at h; cases h
    | none =>
      rw [hmc] at h
      cases hsg : scanGroup t with
      | some gr => obtain ⟨g, r⟩ := gr; rw [hsg] at h; cases h
      | none =>
        cases a with
        | nil =>
          rw [List.nil_append] at hl
          rw [hl, matchClose_ticks] at hmc
          cases hmc
        | cons a0 as =>
          rw [List.cons_append] at hl
          injection hl with h1 h2
          exact ih ⟨as, b, h2⟩ hsg

theorem matchWsThenGroup_none {l : List Char} (h : matchWsThenGroup l = none) :
    scanGroup l = none := by
  cases l with
  | nil => exact scanGroup_nil
  | cons c t =>
    rw [matchWsThenGroup_cons] at h
    by_cases hw : jsWhitespace c
    · rw [if_pos hw] at h
      cases hmt : matchWsThenGroup t with
      | some r => rw [hmt] at h; cases h
      | none => rw [hmt] at h; exact h
    · rw [if_neg hw] at h
      exact h

theorem matchWsThenGroup_sound : ∀ {l g r : List Char},
    matchWsThenGroup l = some (g, r) →
    ∃ w0 w, l = w0 ++ (g ++ (w ++ (ticks ++ r))) ∧
      (∀ c ∈ w0, jsWhitespace c) ∧ (∀ c ∈ w, jsWhitespace c) := by
  intro l
  induction l with
  | nil =>
    intro g r h
    rw [matchWsThenGroup_nil] at h
    cases h
  | cons c t ih =>
    intro g r h
    rw [matchWsThenGroup_cons] at h
    by_cases hw : jsWhitespace c
    · rw [if_pos hw] at h
      cases hmt : matchWsThenGroup t with
      | some gr =>
        obtain ⟨g2, r2⟩ := gr
        rw [hmt] at h
        simp only [Option.some.injEq, Prod.mk.injEq] at h
        obtain ⟨hg, hr⟩ := h
        subst hg
        subst hr
        obtain ⟨w0, w, h1, h2, h3⟩ := ih hmt
        refine ⟨c :: w0, w, by simp [h1], ?_, h3⟩
        intro x hx
        rcases List.mem_cons.mp hx with rfl | hx2
        · exact hw
        · exact h2 x hx2
      | none =>
        rw [hmt] at h
        obtain ⟨w, h1, h2⟩ := scanGroup_sound h
        exact ⟨[], w, by simpa using h1, by simp, h2⟩
    · rw [if_neg hw] at h
      obtain ⟨w, h1, h2⟩ := scanGroup_sound h
      exact ⟨[], w, by simpa using h1, by simp, h2⟩

theorem tryFenceAt_sound : ∀ {l g m : List Char}, tryFenceAt l = some (g, m) →
    (∃ rest, l = m ++ rest) ∧
    ∃ x w1 w2, m = ticks ++ (x ++ (w1 ++ (g ++ (w2 ++ ticks)))) ∧
      (x = [] ∨ x = xmlTag) ∧
      (∀ c ∈ w1, jsWhitespace c) ∧ (∀ c ∈ w2, jsWhitespace c) := by
  intro l g m h
  rw [tryFenceAt] at h
  cases h3 : stripLit ticks l with
  | none => simp only [h3] at h; cases h
  | some l3 =>
    simp only [h3] at h
    have hl : l = ticks ++ l3 := stripLit_some_iff.mp h3
    cases hx : stripLit xmlTag l3 with
    | some l6 =>
      simp only [hx] at h
      have hl3 : l3 = xmlTag ++ l6 := stripLit_some_iff.mp hx
      cases h6 : matchWsThenGroup l6 with
      | some gr =>
        obtain ⟨g2, r2⟩ := gr
        simp only [h6] at h
        simp only [Option.some.injEq, Prod.mk.injEq] at h
        obtain ⟨hg, hm⟩ := h
        subst hg
        obtain ⟨w0, w, h1, hws0, hws⟩ := matchWsThenGroup_sound h6
        have hfull : l = (ticks ++ (xmlTag ++ (w0 ++ (g2 ++ (w ++ ticks))))) ++ r2 := by
          rw [hl, hl3, h1]
          simp [List.append_assoc]
        have hm2 : m = ticks ++ (xmlTag ++ (w0 ++ (g2 ++ (w ++ ticks)))) := by
          rw [← hm, hfull, take_all_but]
        exact ⟨⟨r2, by rw [hfull, hm2]⟩,
               xmlTag, w0, w, hm2, Or.inr rfl, hws0, hws⟩
      | none =>
        simp only [h6] at h
        cases h2 : matchWsThenGroup l3 with
        | some gr =>
          obtain ⟨g2, r2⟩ := gr
          simp only [h2] at h
          simp only [Option.some.injEq, Prod.mk.injEq] at h
          obtain ⟨hg, hm⟩ := h
          subst hg
          obtain ⟨w0, w, h1, hws0, hws⟩ := matchWsThenGroup_sound h2
          have hfull : l = (ticks ++ ([] ++ (w0 ++ (g2 ++ (w ++ ticks))))) ++ r2 := by
            rw [hl, h1]
            simp [List.append_assoc]
          have hm2 : m = ticks ++ ([] ++ (w0 ++ (g2 ++ (w ++ ticks)))) := by
            rw [← hm, hfull, take_all_but]
          exact ⟨⟨r2, by rw [hfull, hm2]⟩,
                 [], w0, w, hm2, Or.inl rfl, hws0, hws⟩
        | none => simp only [h2] at h; cases h
    | none =>
      simp only [hx] at h
      cases h2 : matchWsThenGroup l3 with
      | some gr =>
        obtain ⟨g2, r2⟩ := gr
        simp only [h2] at h
        simp only [Option.some.injEq, Prod.mk.injEq] at h
        obtain ⟨hg, hm⟩ := h
        subst hg
        obtain ⟨w0, w, h1, hws0, hws⟩ := matchWsThenGroup_sound h2
        have hfull : l = (ticks ++ ([] ++ (w0 ++ (g2 ++ (w ++ ticks))))) ++ r2 := by
          rw [hl, h1]
          simp [List.append_assoc]
        have hm2 : m = ticks ++ ([] ++ (w0 ++ (g2 ++ (w ++ ticks)))) := by
          rw [← hm, hfull, take_all_but]
        exact ⟨⟨r2, by rw [hfull, hm2]⟩,
               [], w0, w, hm2, Or.inl rfl, hws0, hws⟩
      | none => simp only [h2] at h; cases h

theorem tryFenceAt_none : ∀ {l : List Char}, tryFenceAt l = none →
    ∀ b c : List Char, l ≠ ticks ++ (b ++ (ticks ++ c)) := by
  intro l h b c hl
  rw [tryFenceAt] at h
  have h3 : stripLit ticks l = some (b ++ (ticks ++ c)) := by
    exact stripLit_some_iff.mpr hl
  simp only [h3] at h
  cases hx : stripLit xmlTag (b ++ (ticks ++ c)) with
  | some l6 =>
    simp only [hx] at h
    cases h6 : matchWsThenGroup l6 with
    | some gr => obtain ⟨g2, r2⟩ := gr; simp only [h6] at h; cases h
    | none =>
      simp only [h6] at h
      cases h2 : matchWsThenGroup (b ++ (ticks ++ c)) with
      | some gr => obtain ⟨g2, r2⟩ := gr; simp only [h2] at h; cases h
      | none =>
        exact scanGroup_ne_none ⟨b, c, rfl⟩ (matchWsThenGroup_none h2)
  | none =>
    simp only [hx] at h
    cases h2 : matchWsThenGroup (b ++ (ticks ++ c)) with
    | some gr => obtain ⟨g2, r2⟩ := gr; simp only [h2] at h; cases h
    | none =>
      exact scanGroup_ne_none ⟨b, c, rfl⟩ (matchWsThenGroup_none h2)

theorem findFence_sound : ∀ {l g m : List Char}, findFence l = some (g, m) →
    (∃ pre rest, l = pre ++ (m ++ rest)) ∧
    ∃ x w1 w2, m = ticks ++ (x ++ (w1 ++ (g ++ (w2 ++ ticks)))) ∧
      (x = [] ∨ x = xmlTag) ∧
      (∀ c ∈ w1, jsWhitespace c) ∧ (∀ c ∈ w2, jsWhitespace c) := by
  intro l
  induction l with
  | nil =>
    intro g m h
    rw [findFence_nil] at h
    cases h
  | cons c t ih =>
    intro g m h
    rw [findFence_cons] at h
    cases hf : tryFenceAt (c :: t) with
    | some gm =>
      obtain ⟨g2, m2⟩ := gm
      rw [hf] at h
      simp only [Option.some.injEq, Prod.mk.injEq] at h
      obtain ⟨hg, hm⟩ := h
      subst hg
      subst hm
      obtain ⟨⟨rest, hrest⟩, shape⟩ := tryFenceAt_sound hf
      exact ⟨⟨[], rest, by simpa using hrest⟩, shape⟩
    | none =>
      rw [hf] at h
      obtain ⟨⟨pre, rest, h1⟩, shape⟩ := ih h
      exact ⟨⟨c :: pre, rest, by simp [h1]⟩, shape⟩

theorem findFence_none : ∀ {l : List Char}, findFence l = none →
    ¬ ∃ a b c : List Char, l = a ++ (ticks ++ (b ++ (ticks ++ c))) := by
  intro l
  induction l with
  | nil =>
    intro _ hex
    obtain ⟨a, b, c, hl⟩ := hex
    have := congrArg List.length hl
    simp [ticks, List.length_append] at this
    omega
  | cons ch t ih =>
    intro h hex
    obtain ⟨a, b, c, hl⟩ := hex
    rw [findFence_cons] at h
    cases hf : tryFenceAt (ch :: t) with
    | some gm => rw [hf] at h; cases h
    | none =>
      rw [hf] at h
      cases a with
      | nil =>
        rw [List.nil_append] at hl
        exact tryFenceAt_none hf b c hl
      | cons a0 as =>
        rw [List.cons_append] at hl
        injection hl with h1 h2
        exact ih h ⟨as, b, c, h2⟩

theorem greedyToClose_sound : ∀ {l r : List Char}, greedyToClose l = some r →
    ∃ mid, l = mid ++ (closeTag ++ r) := by
  intro l
  induction l with
  | nil =>
    intro r h
    rw [greedyToClose_nil] at h
    cases h
  | cons c t ih =>
    intro r h
    rw [greedyToClose_cons] at h
    cases hg : greedyToClose t with
    | some r2 =>
      rw [hg] at h
      injection h with h2
      subst h2
      obtain ⟨mid, h1⟩ := ih hg
      exact ⟨c :: mid, by simp [h1]⟩
    | none =>
      rw [hg] at h
      exact ⟨[], by simpa using stripLit_some_iff.mp h⟩

theorem greedyToClose_ne_none : ∀ {l : List Char},
    (∃ a b, l = a ++ (closeTag ++ b)) → greedyToClose l ≠ none := by
  intro l
  induction l with
  | nil =>
    rintro ⟨a, b, hl⟩ _
    have := congrArg List.length hl
    simp [closeTag, List.length_append] at this
    omega
  | cons c t ih =>
    rintro ⟨a, b, hl⟩ h
    rw [greedyToClose_cons] at h
    cases hg : greedyToClose t with
    | some r => rw [hg] at h; cases h
    | none =>
      rw [hg] at h
      cases a with
      | nil =>
        rw [List.nil_append] at hl
        rw [stripLit_some_iff.mpr hl] at h
        cases h
      | cons a0 as =>
        rw [List.cons_append] at hl
        injection hl with h1 h2
        exact ih ⟨as, b, h2⟩ hg

theorem tryXmlAt_sound : ∀ {l m : List Char}, tryXmlAt l = some m →
    (∃ rest, l = m ++ rest) ∧ ∃ mid, m = xmlProlog ++ (mid ++ closeTag) := by
  intro l m h
  rw [tryXmlAt] at h
  cases h5 : stripLit xmlProlog l with
  | none => simp only [h5] at h; cases h
  | some l5 =>
    simp only [h5] at h
    have hl : l = xmlProlog ++ l5 := stripLit_some_iff.mp h5
    cases hg : greedyToClose l5 with
    | some r =>
      simp only [hg] at h
      injection h with h2
      obtain ⟨mid, h1⟩ := greedyToClose_sound hg
      have hfull : l = (xmlProlog ++ (mid ++ closeTag)) ++ r := by
        rw [hl, h1]
        simp [List.append_assoc]
      have hm2 : m = xmlProlog ++ (mid ++ closeTag) := by
        rw [← h2, hfull, take_all_but]
      exact ⟨⟨r, by rw [hfull, hm2]⟩, mid, hm2⟩
    | none => simp only [hg] at h; cases h

theorem tryXmlAt_none : ∀ {l : List Char}, tryXmlAt l = none →
    ∀ b c : List Char, l ≠ xmlProlog ++ (b ++ (closeTag ++ c)) := by
  intro l h b c hl
  rw [tryXmlAt] at h
  simp only [stripLit_some_iff.mpr hl] at h
  cases hg : greedyToClose (b ++ (closeTag ++ c)) with
  | some r => simp only [hg] at h; cases h
  | none => exact greedyToClose_ne_none ⟨b, c, rfl⟩ hg

theorem findXmlSpan_sound : ∀ {l m : List Char}, findXmlSpan l = some m →
    (∃ pre rest, l = pre ++ (m ++ rest)) ∧
    ∃ mid, m = xmlProlog ++ (mid ++ closeTag) := by
  intro l
  induction l with
  | nil =>
    intro m h
    rw [findXmlSpan_nil] at h
    cases h
  | cons c t ih =>
    intro m h
    rw [findXmlSpan_cons] at h
    cases hx : tryXmlAt (c :: t) with
    | some m2 =>
      rw [hx] at h
      injection h with h2
      subst h2
      obtain ⟨⟨rest, hrest⟩, shape⟩ := tryXmlAt_sound hx
      exact ⟨⟨[], rest, by simpa using hrest⟩, shape⟩
    | none =>
      rw [hx] at h
      obtain ⟨⟨pre, rest, h1⟩, shape⟩ := ih h
      exact ⟨⟨c :: pre, rest, by simp [h1]⟩, shape⟩

theorem findXmlSpan_none : ∀ {l : List Char}, findXmlSpan l = none →
    ¬ ∃ a b c : List Char, l = a ++ (xmlProlog ++ (b ++ (closeTag ++ c))) := by
  intro l
  induction l with
  | nil =>
    intro _ hex
    obtain ⟨a, b, c, hl⟩ := hex
    have := congrArg List.length hl
    simp [xmlProlog, closeTag, List.length_append] at this
    omega
  | cons ch t ih =>
    intro h hex
    obtain ⟨a, b, c, hl⟩ := hex
    rw [findXmlSpan_cons] at h
    cases hx : tryXmlAt (ch :: t) with
    | some m => rw [hx] at h; cases h
    | none =>
      rw [hx] at h
      cases a with
      | nil =>
        rw [List.nil_append] at hl
        exact tryXmlAt_none hx b c hl
      | cons a0 as =>
        rw [List.cons_append] at hl
        injection hl with h1 h2
        exact ih h ⟨as, b, c, h2⟩

/-- C1 (amended): For every raw provider text, both providers run the same
extraction; if the text contains a fenced code block (optionally tagged
"xml") — i.e. a pair of triple-backtick fences — the candidate is the
leftmost, lazily captured interior of that block when that interior is
non-empty, and the entire matched block including the fences when the
captured interior is empty; otherwise, if the text contains a span from a
literal XML prolog through a closing jmeterTestPlan tag, the candidate is
the matched span (prolog through the last closing tag); otherwise the
candidate is the entire raw text. -/
theorem c1_extraction_rule (t : String) :
    extractCandidateGoogle t = extractCandidateOpenAI t ∧
    (match findFence t.data with
     | some (g, m) =>
       (∃ pre rest, t.data = pre ++ (m ++ rest)) ∧
       (∃ x w1 w2, m = ticks ++ (x ++ (w1 ++ (g ++ (w2 ++ ticks)))) ∧
         (x = [] ∨ x = xmlTag) ∧
         (∀ c ∈ w1, jsWhitespace c) ∧ (∀ c ∈ w2, jsWhitespace c)) ∧
       extractCandidateGoogle t = (if g = [] then String.mk m else String.mk g)
     | none =>
       (¬ ∃ a b c : List Char, t.data = a ++ (ticks ++ (b ++ (ticks ++ c)))) ∧
       (match findXmlSpan t.data with
        | some m =>
          (∃ pre rest, t.data = pre ++ (m ++ rest)) ∧
          (∃ mid, m = xmlProlog ++ (mid ++ closeTag)) ∧
          extractCandidateGoogle t = String.mk m
        | none =>
          (¬ ∃ a b c : List Char,
             t.data = a ++ (xmlProlog ++ (b ++ (closeTag ++ c)))) ∧
          extractCandidateGoogle t = t)) := by
  refine ⟨rfl, ?_⟩
  cases hf : findFence t.data with
  | some gm =>
    obtain ⟨g, m⟩ := gm
    obtain ⟨hpre, hshape⟩ := findFence_sound hf
    refine ⟨hpre, hshape, ?_⟩
    simp only [extractCandidateGoogle, hf]
  | none =>
    refine ⟨findFence_none hf, ?_⟩
    cases hx : findXmlSpan t.data with
    | some m =>
      obtain ⟨hpre, hshape⟩ := findXmlSpan_sound hx
      refine ⟨hpre, hshape, ?_⟩
      simp only [extractCandidateGoogle, hf, hx]
    | none =>
      refine ⟨findXmlSpan_none hx, ?_⟩
      simp only [extractCandidateGoogle, hf, hx]

def emptyFenceInput : String := "``` ```"

/-- C1 counterexample: the text consisting of two triple-backtick fences
separated by a space contains a fenced code block whose captured interior
is the empty string, yet the extracted candidate is the whole block with
the fences — not that interior — so the extraction rule as stated in the
claim fails on this input. -/
theorem c1_counterexample :
    (∃ a b c : List Char,
       emptyFenceInput.data = a ++ (ticks ++ (b ++ (ticks ++ c)))) ∧
    findFence emptyFenceInput.data = some ([], emptyFenceInput.data) ∧
    extractCandidateGoogle emptyFenceInput = emptyFenceInput ∧
    extractCandidateOpenAI emptyFenceInput = emptyFenceInput ∧
    emptyFenceInput ≠ "" := by
  exact ⟨⟨[], [' '], [], by decide⟩, by decide, by decide, by decide, by decide⟩

/-- C10: if the provider text contains a fenced code block whose captured
interior is empty (the fenced regex matched with an empty capture group —
between the fences there is nothing but the optional "xml" tag and
whitespace), the extracted candidate is the entire matched block including
the backtick fences, because the empty capture group is falsy and falls
back to the full regex match. -/
theorem c10_empty_interior (t : String) (m : List Char)
    (h : findFence t.data = some ([], m)) :
    extractCandidateGoogle t = String.mk m ∧
    extractCandidateOpenAI t = String.mk m ∧
    ∃ x w1 w2, m = ticks ++ (x ++ (w1 ++ (w2 ++ ticks))) ∧
      (x = [] ∨ x = xmlTag) ∧
      (∀ c ∈ w1, jsWhitespace c) ∧ (∀ c ∈ w2, jsWhitespace c) := by
  refine ⟨by simp [extractCandidateGoogle, h], by simp [extractCandidateOpenAI, h], ?_⟩
  obtain ⟨_, x, w1, w2, hm, hx, h1, h2⟩ := findFence_sound h
  exact ⟨x, w1, w2, by simpa using hm, hx, h1, h2⟩

def xmlFenceInput : String := "```xml\n```"

/-- Witness for C10: on the concrete text consisting of an xml-tagged
opening fence, a newline and a closing fence, the extraction returns the
whole text, fences included. -/
theorem c10_empty_interior_witness :
    extractCandidateGoogle xmlFenceInput = String.mk xmlFenceInput.data :=
  (c10_empty_interior xmlFenceInput xmlFenceInput.data (by decide)).1

theorem dedupFold_aux (l : List String) : ∀ acc : List String, acc.Nodup →
    (l.foldl (fun a x => if x ∈ a then a else a ++ [x]) acc).Nodup ∧
    (l.foldl (fun a x => if x ∈ a then a else a ++ [x]) acc).toFinset =
      acc.toFinset ∪ l.toFinset := by
  induction l with
  | nil =>
    intro acc h
    simp [h]
  | cons x xs ih =>
    intro acc hacc
    rw [List.foldl_cons]
    by_cases hx : x ∈ acc
    · rw [if_pos hx]
      obtain ⟨h1, h2⟩ := ih acc hacc
      refine ⟨h1, ?_⟩
      rw [h2]
      ext a
      simp only [Finset.mem_union, List.mem_toFinset, List.mem_cons]
      constructor
      · rintro (h | h)
        · exact Or.inl h
        · exact Or.inr (Or.inr h)
      · rintro (h | rfl | h)
        · exact Or.inl h
        · exact Or.inl hx
        · exact Or.inr h
    · rw [if_neg hx]
      have hacc2 : (acc ++ [x]).Nodup := by
        rw [List.nodup_append]
        refine ⟨hacc, List.nodup_singleton x, ?_⟩
        intro a ha hax
        rw [List.mem_singleton] at hax
        subst hax
        exact hx ha
      obtain ⟨h1, h2⟩ := ih (acc ++ [x]) hacc2
      refine ⟨h1, ?_⟩
      rw [h2]
      ext a
      simp only [Finset.mem_union, List.mem_toFinset, List.mem_append,
        List.mem_cons, List.mem_singleton]
      constructor
      · rintro ((h | rfl | h0) | h)
        · exact Or.inl h
        · exact Or.inr (Or.inl rfl)
        · exact absurd h0 (List.not_mem_nil a)
        · exact Or.inr (Or.inr h)
      · rintro (h | rfl | h)
        · exact Or.inl (Or.inl h)
        · exact Or.inl (Or.inr (Or.inl rfl))
        · exact Or.inr h

theorem jsSetDedup_nodup (l : List String) : (jsSetDedup l).Nodup :=
  (dedupFold_aux l [] List.nodup_nil).1

theorem jsSetDedup_toFinset (l : List String) :
    (jsSetDedup l).toFinset = l.toFinset := by
  have h := (dedupFold_aux l [] List.nodup_nil).2
  simpa [jsSetDedup] using h

theorem foldl_time_sum (entries : List HarEntry) : ∀ init : Rat,
    entries.foldl (fun sum e => sum + e.time) init =
      init + (entries.map HarEntry.time).sum := by
  induction entries with
  | nil =>
    intro init
    simp
  | cons e es ih =>
    intro init
    rw [List.foldl_cons, ih, List.map_cons, List.sum_cons]
    ring

/-- C4: for every HAR document, the summary's avgResponseTime is the exact
arithmetic mean of the entries' time fields, and is NaN when there are no
entries (the zero-entry case is not guarded: the code divides the sum 0 by
the length 0, which is NaN in JavaScript). -/
theorem c4_avg_response_time (host : String → String) (entries : List HarEntry) :
    (buildSummary host entries).avgResponseTime =
      if entries.length = 0 then JsNum.nan
      else JsNum.num ((entries.map HarEntry.time).sum / (entries.length : Rat)) := by
  show jsDiv (entries.foldl (fun sum e => sum + e.time) 0) (entries.length : Rat) = _
  rw [foldl_time_sum, zero_add]
  by_cases h : entries.length = 0
  · rw [if_pos h]
    have he : entries = [] := List.length_eq_zero.mp h
    subst he
    simp [jsDiv]
  · rw [if_neg h]
    have hne : (entries.length : Rat) ≠ 0 := Nat.cast_ne_zero.mpr h
    simp [jsDiv, hne]

/-- C5: two requests that are identical except in their loadConfig field
produce identical invocations — the load-configuration values are never
read by the handler, so the prompt, the outbound provider request, the
response, and even the logs are unchanged. -/
theorem c5_loadConfig_noninterference (env : Env)
    (world : OutboundRequest → FetchResult) (host : String → String)
    (strf : HarFile → String) (m : String) (hc : HarFile)
    (lc lc2 : Option LoadConfig) (tpn prov : Option String) :
    handleRequest env world host strf ⟨m, ⟨hc, lc, tpn, prov⟩⟩ =
    handleRequest env world host strf ⟨m, ⟨hc, lc2, tpn, prov⟩⟩ := rfl

/-- C8: a preflight (OPTIONS) request is answered immediately with status
200, an empty body and exactly the permissive cross-origin headers; no
outbound call is made and nothing is logged. -/
theorem c8_preflight (env : Env) (world : OutboundRequest → FetchResult)
    (host : String → String) (strf : HarFile → String) (req : Request)
    (hm : req.method = "OPTIONS") :
    handleRequest env world host strf req =
      ⟨200, corsHeaders, ResponseBody.empty, [], []⟩ := by
  rw [handleRequest, if_pos hm]

theorem handleRequest_headers (env : Env) (world : OutboundRequest → FetchResult)
    (host : String → String) (strf : HarFile → String) (req : Request) :
    (handleRequest env world host strf req).headers =
      if req.method = "OPTIONS" then corsHeaders else jsonHeaders := by
  by_cases hm : req.method = "OPTIONS"
  · rw [if_pos hm, handleRequest, if_pos hm]
  · rw [if_neg hm]
    simp only [handleRequest, hm, if_false]
    cases hsel : selectProvider env (req.body.aiProvider.getD ("openai"))
        (jmxPrompt strf req.body.harContent) with
    | error msg => simp [hsel]
    | ok outReq =>
      simp only [hsel]
      by_cases hok : (world outReq).ok = true
      · simp only [hok, if_true]
        by_cases hval :
            jmxOf (req.body.aiProvider.getD ("openai")) (world outReq) = "" ∨
            occursIn jmeterTag
              (jmxOf (req.body.aiProvider.getD ("openai")) (world outReq)).data = false
        · simp [hval]
        · simp [hval]
      · simp [hok]

/-- C9 (amended): every response carries the permissive cross-origin
headers; every non-preflight response (success and error alike) carries
exactly the cross-origin headers plus Content-Type: application/json; the
preflight response carries only the cross-origin headers, without a
Content-Type header. -/
theorem c9_headers (env : Env) (world : OutboundRequest → FetchResult)
    (host : String → String) (strf : HarFile → String) (req : Request) :
    (∀ h ∈ corsHeaders, h ∈ (handleRequest env world host strf req).headers) ∧
    (req.method ≠ "OPTIONS" →
      (handleRequest env world host strf req).headers = jsonHeaders) ∧
    (req.method = "OPTIONS" →
      (handleRequest env world host strf req).headers = corsHeaders) := by
  rw [handleRequest_headers]
  by_cases hm : req.method = "OPTIONS"
  · rw [if_pos hm]
    exact ⟨fun h hh => hh, fun hc => absurd hm hc, fun _ => rfl⟩
  · rw [if_neg hm]
    refine ⟨?_, fun _ => rfl, fun hc => absurd hc hm⟩
    intro h hh
    rw [jsonHeaders, List.mem_append]
    exact Or.inl hh

/-- C6: when the selected provider's API key is absent from the
environment, no outbound call is made and the invocation fails with
HTTP 500 and the corresponding "key not configured" message. -/
theorem c6_missing_key (env : Env) (world : OutboundRequest → FetchResult)
    (host : String → String) (strf : HarFile → String) (req : Request)
    (hm : req.method ≠ "OPTIONS")
    (hkey : (if req.body.aiProvider.getD ("openai") = "google"
             then env.googleAIApiKey else env.openAIApiKey) = none) :
    (handleRequest env world host strf req).outboundCalls = [] ∧
    (handleRequest env world host strf req).status = 500 ∧
    (handleRequest env world host strf req).body =
      ResponseBody.failure
        (if req.body.aiProvider.getD ("openai") = "google"
         then "Google AI API key not configured"
         else "OpenAI API key not configured") := by
  by_cases hp : req.body.aiProvider.getD ("openai") = "google"
  · rw [if_pos hp] at hkey
    have hsel : selectProvider env (req.body.aiProvider.getD ("openai"))
        (jmxPrompt strf req.body.harContent) =
        Except.error ("Google AI API key not configured") := by
      simp [selectProvider, hp, hkey]
    simp only [hp] at hsel
    simp [handleRequest, hm, hsel, hp]
  · rw [if_neg hp] at hkey
    have hsel : selectProvider env (req.body.aiProvider.getD ("openai"))
        (jmxPrompt strf req.body.harContent) =
        Except.error ("OpenAI API key not configured") := by
      simp [selectProvider, hp, hkey]
    simp [handleRequest, hm, hsel, hp]

/-- C2: once a provider response has been obtained, the invocation
succeeds — returning the extracted candidate as jmxContent — exactly when
the candidate is non-empty and contains the literal substring
"<jmeterTestPlan"; otherwise it fails with HTTP 500 and the GenerationError
message "AI did not generate valid JMeter XML content". -/
theorem c2_validation_gate (env : Env) (world : OutboundRequest → FetchResult)
    (host : String → String) (strf : HarFile → String) (req : Request)
    (outReq : OutboundRequest)
    (hm : req.method ≠ "OPTIONS")
    (hsel : selectProvider env (req.body.aiProvider.getD ("openai"))
        (jmxPrompt strf req.body.harContent) = Except.ok outReq)
    (hok : (world outReq).ok = true) :
    (jmxOf (req.body.aiProvider.getD ("openai")) (world outReq) ≠ "" ∧
       occursIn jmeterTag
         (jmxOf (req.body.aiProvider.getD ("openai")) (world outReq)).data = true →
     (handleRequest env world host strf req).status = 200 ∧
     (handleRequest env world host strf req).body =
       ResponseBody.success
         (jmxOf (req.body.aiProvider.getD ("openai")) (world outReq))
         ⟨if req.body.aiProvider.getD ("openai") = "google"
           then "Google AI Studio" else "OpenAI",
          true, req.body.testPlanName.getD ("HAR Performance Test")⟩
         (buildSummary host req.body.harContent.log.entries)) ∧
    (jmxOf (req.body.aiProvider.getD ("openai")) (world outReq) = "" ∨
       occursIn jmeterTag
         (jmxOf (req.body.aiProvider.getD ("openai")) (world outReq)).data = false →
     (handleRequest env world host strf req).status = 500 ∧
     (handleRequest env world host strf req).body =
       ResponseBody.failure ("AI did not generate valid JMeter XML content")) := by
  constructor
  · rintro ⟨h1, h2⟩
    simp [handleRequest, hm, hsel, hok, h1, h2]
  · intro h
    rcases h with h | h
    · simp [handleRequest, hm, hsel, hok, h]
    · have h1 : occursIn jmeterTag
          (jmxOf (req.body.aiProvider.getD ("openai")) (world outReq)).data ≠ true := by
        rw [h]
        exact Bool.false_ne_true
      simp [handleRequest, hm, hsel, hok, h1]

/-- C3: on a successful invocation the response carries the computed
summary: totalRequests is the entry count, uniqueDomains is the
duplicate-free list of the hostnames of the entries' request URLs (equal
as a set to the mapped hostnames), and methodsUsed is likewise the
duplicate-free list of the entries' HTTP methods. -/
theorem c3_summary_fields (env : Env) (world : OutboundRequest → FetchResult)
    (host : String → String) (strf : HarFile → String) (req : Request)
    (outReq : OutboundRequest)
    (hm : req.method ≠ "OPTIONS")
    (hsel : selectProvider env (req.body.aiProvider.getD ("openai"))
        (jmxPrompt strf req.body.harContent) = Except.ok outReq)
    (hok : (world outReq).ok = true)
    (hval : jmxOf (req.body.aiProvider.getD ("openai")) (world outReq) ≠ "" ∧
      occursIn jmeterTag
        (jmxOf (req.body.aiProvider.getD ("openai")) (world outReq)).data = true) :
    (handleRequest env world host strf req).body =
      ResponseBody.success
        (jmxOf (req.body.aiProvider.getD ("openai")) (world outReq))
        ⟨if req.body.aiProvider.getD ("openai") = "google"
          then "Google AI Studio" else "OpenAI",
         true, req.body.testPlanName.getD ("HAR Performance Test")⟩
        (buildSummary host req.body.harContent.log.entries) ∧
    (buildSummary host req.body.harContent.log.entries).totalRequests =
      req.body.harContent.log.entries.length ∧
    (buildSummary host req.body.harContent.log.entries).uniqueDomains.Nodup ∧
    (buildSummary host req.body.harContent.log.entries).uniqueDomains.toFinset =
      (req.body.harContent.log.entries.map (fun e => host e.request.url)).toFinset ∧
    (buildSummary host req.body.harContent.log.entries).methodsUsed.Nodup ∧
    (buildSummary host req.body.harContent.log.entries).methodsUsed.toFinset =
      (req.body.harContent.log.entries.map (fun e => e.request.method)).toFinset := by
  obtain ⟨h1, h2⟩ := hval
  refine ⟨by simp [handleRequest, hm, hsel, hok, h1, h2],
          rfl, jsSetDedup_nodup _, jsSetDedup_toFinset _,
          jsSetDedup_nodup _, jsSetDedup_toFinset _⟩

/-- C7: when the provider call returns a non-success status, the
invocation fails with HTTP 500 carrying the wrapped upstream-error message
built from the provider's statusText; the raw error body appears only in
the logs; and no success body (hence no jmxContent artifact) is returned. -/
theorem c7_upstream_failure (env : Env) (world : OutboundRequest → FetchResult)
    (host : String → String) (strf : HarFile → String) (req : Request)
    (outReq : OutboundRequest)
    (hm : req.method ≠ "OPTIONS")
    (hsel : selectProvider env (req.body.aiProvider.getD ("openai"))
        (jmxPrompt strf req.body.harContent) = Except.ok outReq)
    (hfail : (world outReq).ok = false) :
    (handleRequest env world host strf req).status = 500 ∧
    (handleRequest env world host strf req).body =
      ResponseBody.failure
        ("Failed to generate JMX file using AI: " ++
          (req.body.aiProvider.getD ("openai") ++ " API error: " ++
            (world outReq).statusText)) ∧
    (req.body.aiProvider.getD ("openai") ++ " API error: " ++
      (world outReq).errorText) ∈ (handleRequest env world host strf req).logs ∧
    (∀ c md s, (handleRequest env world host strf req).body ≠
      ResponseBody.success c md s) := by
  have hok : (world outReq).ok ≠ true := by
    rw [hfail]
    exact Bool.false_ne_true
  refine ⟨?_, ?_, ?_, ?_⟩
  · simp [handleRequest, hm, hsel, hok]
  · simp [handleRequest, hm, hsel, hok]
  · simp [handleRequest, hm, hsel, hok]
  · intro c md s
    simp [handleRequest, hm, hsel, hok]

/- Concrete inputs used to witness the handler theorems. -/

def hostW : String → String := fun _ => "example.com"

def strfW : HarFile → String := fun _ => "{}"

def entryW : HarEntry :=
  ⟨⟨"GET", "https://example.com/", [], [], none⟩, ⟨200, []⟩, 100,
   "2024-01-01T00:00:00.000Z"⟩

def harW : HarFile := ⟨⟨[entryW]⟩⟩

def goodXml : String := "<jmeterTestPlan></jmeterTestPlan>"

def okOpenAIBody : OpenAIBody := ⟨some [⟨some ⟨some goodXml⟩⟩]⟩

def emptyGoogleBody : GoogleBody := ⟨none⟩

def worldOk : OutboundRequest → FetchResult :=
  fun _ => ⟨true, "OK", "", emptyGoogleBody, okOpenAIBody⟩

def worldBad : OutboundRequest → FetchResult :=
  fun _ => ⟨false, "Too Many Requests", "rate limited", emptyGoogleBody, ⟨none⟩⟩

def envOpenAI : Env := ⟨some "sk-test", none⟩

def envEmpty : Env := ⟨none, none⟩

def bodyW : RequestBody := ⟨harW, none, none, none⟩

def reqPost : Request := ⟨"POST", bodyW⟩

def reqOptions : Request := ⟨"OPTIONS", bodyW⟩

def outReqW : OutboundRequest := openaiRequest ("sk-test") (jmxPrompt strfW harW)

/-- C9 counterexample: the preflight response's headers are exactly the
cross-origin headers and do not include Content-Type: application/json, so
"every response includes Content-Type: application/json" fails on the
preflight response. -/
theorem c9_counterexample :
    (handleRequest envEmpty worldOk hostW strfW reqOptions).headers = corsHeaders ∧
    ("Content-Type", "application/json") ∉
      (handleRequest envEmpty worldOk hostW strfW reqOptions).headers := by
  constructor
  · rfl
  · rw [show (handleRequest envEmpty worldOk hostW strfW reqOptions).headers =
        corsHeaders from rfl]
    decide

/-- Witness for C2 at a concrete success invocation. -/
theorem c2_validation_gate_witness :
    (handleRequest envOpenAI worldOk hostW strfW reqPost).status = 200 :=
  ((c2_validation_gate envOpenAI worldOk hostW strfW reqPost outReqW
      (by decide) rfl rfl).1 ⟨by decide, by decide⟩).1

/-- Witness for C3 at a concrete one-entry HAR document. -/
theorem c3_summary_fields_witness :
    (buildSummary hostW harW.log.entries).totalRequests = harW.log.entries.length :=
  (c3_summary_fields envOpenAI worldOk hostW strfW reqPost outReqW
      (by decide) rfl rfl ⟨by decide, by decide⟩).2.1

/-- Witness for C6: missing OpenAI key, no outbound call is made. -/
theorem c6_missing_key_witness :
    (handleRequest envEmpty worldOk hostW strfW reqPost).outboundCalls = [] :=
  (c6_missing_key envEmpty worldOk hostW strfW reqPost (by decide) (by decide)).1

/-- Witness for C7: a failing provider call yields HTTP 500. -/
theorem c7_upstream_failure_witness :
    (handleRequest envOpenAI worldBad hostW strfW reqPost).status = 500 :=
  (c7_upstream_failure envOpenAI worldBad hostW strfW reqPost outReqW
      (by decide) rfl rfl).1

/-- Witness for C8 at a concrete OPTIONS request. -/
theorem c8_preflight_witness :
    handleRequest envEmpty worldOk hostW strfW reqOptions =
      ⟨200, corsHeaders, ResponseBody.empty, [], []⟩ :=
  c8_preflight envEmpty worldOk hostW strfW reqOptions rfl

/-- Witness for C9 at a concrete non-preflight request. -/
theorem c9_headers_witness :
    (handleRequest envOpenAI worldOk hostW strfW reqPost).headers = jsonHeaders :=
  (c9_headers envOpenAI worldOk hostW strfW reqPost).2.1 (by decide)

end HarToJmeter
